import Mathlib

/-!
Shallow embedding of the cfd repository (a Cloudflare-detection tool) and
verification of its specification claims.

Source layout embedded here:
* src/helpers.rs   — string helpers (split, binary rendering, ...)
* src/cf_ips.rs    — CFIPs: CIDR-range matching over the published IPv4 ranges
* src/domain.rs    — Domain: name validation, the five-signal verification
* src/checker.rs   — Checker: batch construction and result filtering

Modelling conventions:
* Rust code that can panic is embedded as an `Option`-returning function;
  `none` models a panic (an abort that produces no value and no state update).
* Fallible Rust code returning `Result` is embedded as `Except String`.
* `String` is modelled through its character list (`String.data`); Rust's
  byte-based `str::len` is modelled as the character count (they agree on the
  ASCII inputs all claims are about), and the Unicode-table-driven parts of
  `char::is_alphanumeric` / `str::to_lowercase` / `str::trim` are modelled by
  their ASCII fragments.
* Network and TLS effects (reqwest, rustls) are external crates, not repository
  code; they are abstracted as an explicit environment value recording what the
  network returned, and the repository's decision logic is embedded faithfully
  over that environment.
-/

namespace Cfd

/-! ## String primitives (modelling Rust `str` operations) -/

/-- Rust `str::split(sep)` for a one-character separator, over character
lists. `"".split(sep)` yields one empty piece, as in Rust. -/
def splitChar (sep : Char) : List Char → List (List Char)
  | [] => [[]]
  | c :: rest =>
    if c = sep then [] :: splitChar sep rest
    else
      match splitChar sep rest with
      | [] => [[c]]
      | g :: gs => (c :: g) :: gs

/-- Rust `str::split("://")`: split on the three-character separator `://`,
scanning left to right, non-overlapping. -/
def splitProto : List Char → List (List Char)
  | ':' :: '/' :: '/' :: rest => [] :: splitProto rest
  | c :: rest =>
    match splitProto rest with
    | [] => [[c]]
    | g :: gs => (c :: g) :: gs
  | [] => [[]]

/-- Rust `str::split` with a one-character separator, producing `String`s. -/
def rsplit (sep : Char) (s : String) : List String :=
  (splitChar sep s.data).map fun l => ⟨l⟩

/-- Rust `str::split("://")`, producing `String`s. -/
def rsplitProto (s : String) : List String :=
  (splitProto s.data).map fun l => ⟨l⟩

/-- Rust `str::trim` (ASCII whitespace fragment). -/
def strTrim (s : String) : String :=
  ⟨((s.data.dropWhile Char.isWhitespace).reverse.dropWhile Char.isWhitespace).reverse⟩

/-- Substring containment over character lists (Rust `str::contains`). -/
def listContainsSub (pat : List Char) : List Char → Bool
  | [] => pat.isEmpty
  | c :: rest => pat.isPrefixOf (c :: rest) || listContainsSub pat rest

/-- Rust `str::contains(pat)`. -/
def scontains (s pat : String) : Bool :=
  listContainsSub pat.data s.data

/-- Rust `char::to_lowercase`, ASCII fragment (the only characters the claims
exercise). -/
def char_to_lower (c : Char) : Char :=
  if 65 ≤ c.toNat ∧ c.toNat ≤ 90 then Char.ofNat (c.toNat + 32) else c

/-- Rust `str::to_lowercase`, ASCII fragment. -/
def str_to_lowercase (s : String) : String :=
  ⟨s.data.map char_to_lower⟩

/-- Rust `str::starts_with(char)`. -/
def startsWithChar (c : Char) (s : String) : Bool :=
  match s.data with
  | [] => false
  | a :: _ => a == c

/-- Rust `str::ends_with(char)`. -/
def endsWithChar (c : Char) (s : String) : Bool :=
  match s.data.getLast? with
  | none => false
  | some a => a == c

/-- Rust `"...".parse::<u8>()`: optional leading `+`, at least one digit, all
digits, value at most 255; `none` on any other input (including overflow). -/
def parseU8 (s : String) : Option Nat :=
  let ds := match s.data with
    | '+' :: rest => rest
    | l => l
  if ds.isEmpty then none
  else if ds.all Char.isDigit then
    let v := ds.foldl (fun a c => a * 10 + (c.toNat - 48)) 0
    if v ≤ 255 then some v else none
  else none

/-- The eight binary digits of `n % 256`, most significant first
(Rust `format!("\x7b:08b\x7d", n)` for a `u8`). -/
def toBin8 (n : Nat) : List Char :=
  (List.range 8).map fun i => if n / 2 ^ (7 - i) % 2 = 1 then '1' else '0'

/-- Byte-slice `s[0..n]` of an all-ASCII string: `none` models the Rust
panic when `n` exceeds the length. -/
def sliceTo (s : String) (n : Nat) : Option String :=
  if n ≤ s.data.length then some ⟨s.data.take n⟩ else none

/-- Concatenation of a list of strings (Rust `collect::<String>()`). -/
def sjoin (l : List String) : String :=
  ⟨(l.map String.data).flatten⟩

/-! ## helpers.rs -/

/-- src/helpers.rs `string_to_binary`: renders each CHARACTER of the string as
the eight binary digits of its code point truncated to a byte (`c as u8`).
Note this encodes the ASCII codes of the characters, not any numeric value the
string may denote. -/
def string_to_binary (s : String) : String :=
  ⟨(s.data.map fun c => toBin8 (c.toNat % 256)).flatten⟩

/-! ## cf_ips.rs -/

/-- src/cf_ips.rs `CFIPs`: the held range lists (one line per range). -/
structure CFIPs where
  ipsv4 : List String
  ipsv6 : List String

/-- src/cf_ips.rs `CFIPs::check_ip_in_cidr`. `none` models a panic:
indexing `cidr_parts[1]` when the range has no `/`, or slicing the binary
strings beyond their length. Mirrors the source order: the `cidr_parts[1]`
access happens before the four-part guard. -/
def check_ip_in_cidr (ip cidr_range : String) : Option Bool :=
  let ip_parts := rsplit '.' ip
  let cidr_parts := rsplit '/' cidr_range
  match cidr_parts[1]? with
  | none => none
  | some p1 =>
    let mask_size := (parseU8 p1).getD 0
    if ip_parts.length ≠ 4 ∨ (rsplit '.' (cidr_parts.headD "")).length ≠ 4 then
      some false
    else
      let ip_bin := sjoin (ip_parts.map string_to_binary)
      let cidr_bin := sjoin ((rsplit '.' (cidr_parts.headD "")).map string_to_binary)
      match sliceTo ip_bin mask_size, sliceTo cidr_bin mask_size with
      | some a, some b => some (a == b)
      | _, _ => none

/-- src/cf_ips.rs `CFIPs::check_ip_v4`: `self.ipsv4.iter().any(...)`, with the
short-circuit of `Iterator::any` (a panic in a later range is not reached once
an earlier range matched). -/
def CFIPs.check_ip_v4 (self : CFIPs) (ip : String) : Option Bool :=
  go self.ipsv4
where
  go : List String → Option Bool
    | [] => some false
    | cidr :: rest =>
      match check_ip_in_cidr ip cidr with
      | none => none
      | some true => some true
      | some false => go rest

/-! ## Claim-side definition for C1 (written from the spec's words, for
comparison with the source's `check_ip_in_cidr`) -/

/-- Parses a dotted-quad string into its four numeric octets (u8 each);
`none` unless there are exactly four parts, all parsing as u8. -/
def parseOctets (s : String) : Option (List Nat) :=
  let parts := rsplit '.' s
  if parts.length = 4 then go parts else none
where
  go : List String → Option (List Nat)
    | [] => some []
    | p :: ps =>
      match parseU8 p, go ps with
      | some v, some vs => some (v :: vs)
      | _, _ => none

/-- The 32-bit numeric encoding of four octets: 8 bits per octet value,
concatenated in order. -/
def octetsToNat (l : List Nat) : Nat :=
  l.foldl (fun a o => a * 256 + o) 0

/-- Definition following the spec's words (claim C1): the leading `p` bits of
the two 32-bit numeric encodings (8 bits per octet VALUE) are equal. -/
def numericPrefixMatch (ip net : String) (p : Nat) : Option Bool :=
  match parseOctets ip, parseOctets net with
  | some a, some b =>
    some (decide (octetsToNat a / 2 ^ (32 - p) = octetsToNat b / 2 ^ (32 - p)))
  | _, _ => none

/-! ## domain.rs -/

/- src/domain.rs `check_result` bit constants. -/
namespace check_result

def EMPTY : Nat := 0b00000

def CF_IP : Nat := 0b00001

def CF_RAY_HEADER : Nat := 0b00010

def CF_CACHE_STATUS_HEADER : Nat := 0b00100

def CF_SERVER : Nat := 0b01000

def CF_SSL : Nat := 0b10000

end check_result

/-- src/domain.rs `Domain`. -/
structure Domain where
  name : String
  check_result : Nat
  is_unreachable : Bool

/-- src/domain.rs `Domain::clear_name_from_proto`: trims, splits on `://`;
with more than one chunk, keeps `chunks[1]` when the first chunk is `http` or
`https` and panics (`none`) on any other scheme token; otherwise returns the
trimmed input. -/
def clear_name_from_proto (domain : String) : Option String :=
  let domain := strTrim domain
  let domain_chunks := rsplitProto domain
  if domain_chunks.length > 1 then
    if domain_chunks.headD "" = "http" ∨ domain_chunks.headD "" = "https" then
      some (domain_chunks[1]?.getD "")
    else none
  else some domain

/-- The validation body of src/domain.rs `Domain::is_valid`, applied to the
already-cleared name (the early-return loop is rendered as `List.all` of the
same conjunction). -/
def is_valid_cleared (domain : String) : Bool :=
  if domain.data.isEmpty then false
  else if 253 < domain.length then false
  else
    let labels := rsplit '.' domain
    if labels.length < 2 then false
    else labels.all fun label =>
      if 63 < label.length then false
      else if ¬ (label.data.all fun c => c.isAlphanum || c == '-') then false
      else if startsWithChar '-' label || endsWithChar '-' label then false
      else true

/-- src/domain.rs `Domain::is_valid`: clears the name (which can panic on a
foreign scheme token) and then validates. -/
def Domain.is_valid (domain : String) : Option Bool :=
  (clear_name_from_proto domain).map is_valid_cleared

/-- src/domain.rs `Domain::build`: `Ok` with the cleared name and empty state
when valid, `Err` otherwise; `none` models the panic `clear_name_from_proto`
raises on a foreign scheme token. -/
def Domain.build (name : String) : Option (Except String Domain) :=
  match Domain.is_valid name with
  | none => none
  | some true =>
    match clear_name_from_proto name with
    | none => none
    | some cleared =>
      some (Except.ok ⟨cleared, check_result.EMPTY, false⟩)
  | some false => some (Except.error ("Invalid domain name: " ++ name))

/-- What the initial `reqwest::get("http://" + name)` returned, when it
succeeded: the optional remote peer address (rendered as a string), whether the
`cf-ray` and `cf-cache-status` headers are present, and the `server` header's
value when present (header values are modelled as strings; `to_str` failure on
non-ASCII values is not modelled). -/
structure HttpResp where
  remote_addr : Option String
  cf_ray : Bool
  cf_cache_status : Bool
  server : Option String

/-- What the raw TLS phase of `get_certificate_info` observed:
`connect` collects the fallible `?` steps (`ClientConnection::new`,
`TcpStream::connect`, `write_all`); `peer_certs` is
`conn.peer_certificates()`, each certificate modelled by its issuer
distinguished name (the x509 parse `unwrap` and the `ServerName` conversion
`unwrap` are not modelled — certificates are given by their parsed issuer). -/
structure TlsPhase where
  connect : Except String Unit
  peer_certs : Option (List String)

/-- The network environment one `verify_domain` run observes. -/
structure NetEnv where
  http : Option HttpResp
  tls : TlsPhase

/-- Rust `Result::is_ok`. -/
def is_ok {ε α : Type} : Except ε α → Bool
  | Except.ok _ => true
  | Except.error _ => false

/-- src/domain.rs `Domain::get_certificate_info`: propagates the fallible
connection steps as `Err`, panics (`none`) when `peer_certificates()` is
`None`, and otherwise returns whether some certificate's lowercased issuer
contains `cloudflare`. -/
def get_certificate_info (tls : TlsPhase) : Option (Except String Bool) :=
  match tls.connect with
  | Except.error e => some (Except.error e)
  | Except.ok _ =>
    match tls.peer_certs with
    | none => none
    | some certs =>
      if certs.any fun cert => scontains (str_to_lowercase cert) "cloudflare" then
        some (Except.ok true)
      else
        some (Except.ok false)

/-- src/domain.rs `Domain::verify_domain`, embedded over the observed network
environment. `none` models a panic: the `unwrap` on a missing `server` header,
or a panic inside `check_ip_v4`, or the `peer_certificates` unwrap. Every
normal return in the source is `Ok(())`. On HTTP failure the record is marked
unreachable and `check_result` is assigned the still-empty mask. -/
def Domain.verify_domain (self : Domain) (cf_ips : CFIPs) (env : NetEnv) :
    Option (Domain × Except String Unit) :=
  match env.http with
  | none =>
    some ({ self with is_unreachable := true, check_result := check_result.EMPTY },
      Except.ok ())
  | some resp =>
    let step_ip : Option Nat :=
      match resp.remote_addr with
      | none => some check_result.EMPTY
      | some ip =>
        match cf_ips.check_ip_v4 ip with
        | none => none
        | some true => some (check_result.EMPTY ||| check_result.CF_IP)
        | some false => some check_result.EMPTY
    match step_ip with
    | none => none
    | some r1 =>
      let r2 := if resp.cf_ray then r1 ||| check_result.CF_RAY_HEADER else r1
      let r3 :=
        if resp.cf_cache_status then r2 ||| check_result.CF_CACHE_STATUS_HEADER else r2
      match resp.server with
      | none => none
      | some server_value =>
        let r4 :=
          if scontains server_value "cloudflare" then r3 ||| check_result.CF_SERVER else r3
        match get_certificate_info env.tls with
        | none => none
        | some cert_res =>
          let r5 := if is_ok cert_res then r4 ||| check_result.CF_SSL else r4
          some ({ self with check_result := r5 }, Except.ok ())

/-! ## checker.rs -/

/-- The record-construction loop of src/checker.rs `Checker::build`: for each
line, a valid line pushes a record, an `Err` line is skipped, and a panic
(`none`, from a foreign scheme token) aborts the whole batch. -/
def collectDomains : List String → Option (List Domain)
  | [] => some []
  | l :: ls =>
    match Domain.build l with
    | none => none
    | some (Except.ok d) => (collectDomains ls).map fun ds => d :: ds
    | some (Except.error _) => collectDomains ls

/-- src/checker.rs `Checker::build`, record-construction part: splits the
target on newlines and collects the records (the `CFIPs::load` network fetch
is external I/O and not modelled). -/
def Checker.build_records (target : String) : Option (List Domain) :=
  collectDomains (rsplit '\n' target)

/-- src/checker.rs `Checker::cf_detected_domains`: the loop pushing every
domain whose `check_result` is nonzero, in order. -/
def cf_detected_domains : List Domain → List Domain
  | [] => []
  | d :: rest =>
    if d.check_result != 0 then d :: cf_detected_domains rest
    else cf_detected_domains rest

/-! ## Claim-side definitions for C8 (written from the claim's words, for
comparison with the source's normalization and validation) -/

/-- Definition following the claim's words (C8): trim whitespace and strip a
LEADING `http://` or `https://` scheme. -/
def spec_strip (s : String) : String :=
  let t := strTrim s
  if "http://".data.isPrefixOf t.data then ⟨t.data.drop 7⟩
  else if "https://".data.isPrefixOf t.data then ⟨t.data.drop 8⟩
  else t

/-- Definition following the claim's words (C8): the name is non-empty, at
most 253 characters, has at least two dot-separated labels, and every label is
at most 63 characters, consists only of alphanumerics and hyphens, and neither
starts nor ends with a hyphen. -/
def spec_is_valid (domain : String) : Bool :=
  ¬ domain.data.isEmpty ∧ domain.length ≤ 253 ∧
    2 ≤ (rsplit '.' domain).length ∧
    ∀ label ∈ rsplit '.' domain,
      label.length ≤ 63 ∧
      (label.data.all fun c => c.isAlphanum || c == '-') = true ∧
      startsWithChar '-' label = false ∧ endsWithChar '-' label = false

/-! ## Theorems -/

/-- C1: the claim states that `check_ip_in_cidr` compares the leading
`prefixLength` bits of the 32-bit NUMERIC encodings (8 bits per octet value)
and that address `131.0.76.1` is therefore outside `131.0.72.0/22`. The code
instead compares the leading bits of the ASCII-character encodings produced by
`string_to_binary` (8 bits per CHARACTER of each octet string), so
`131.0.76.1` — like `131.0.72.1` — matches `131.0.72.0/22`, and so does
`check_ip_v4` over a held-range list consisting of that range, contradicting
the claim's iff (the numeric 22-bit prefixes differ: 72 >> 2 = 18 but
76 >> 2 = 19). -/
theorem check_ip_in_cidr_ascii_counterexample :
    check_ip_in_cidr "131.0.76.1" "131.0.72.0/22" = some true ∧
    CFIPs.check_ip_v4 ⟨["131.0.72.0/22"], []⟩ "131.0.76.1" = some true ∧
    numericPrefixMatch "131.0.76.1" "131.0.72.0" 22 = some false ∧
    check_ip_in_cidr "131.0.72.1" "131.0.72.0/22" = some true ∧
    numericPrefixMatch "131.0.72.1" "131.0.72.0" 22 = some true :=
  ⟨rfl, rfl, rfl, rfl, rfl⟩

/-- C3: the claim states that `check_ip_in_cidr` is total, treats a range
lacking a `/` (or with a prefix length outside [0,32]) as non-matching, and
clamps the prefix length to [0,32]. The code panics (modelled as `none`) when
the range has no `/` (the `cidr_parts[1]` index) and when the prefix length
exceeds the ASCII bit-string length (the slice), and it uses an unclamped
prefix length — `/40` compares 40 bits and still matches. -/
theorem check_ip_in_cidr_panics_on_malformed_range :
    check_ip_in_cidr "1.2.3.4" "1.2.3.4" = none ∧
    check_ip_in_cidr "1.2.3.4" "1.2.3.0/33" = none ∧
    check_ip_in_cidr "131.0.72.1" "131.0.72.0/40" = some true :=
  ⟨rfl, rfl, rfl⟩

/-- C7: for every CIDR range string containing a `/` whose prefix-length part
fails to parse as a `u8`, and every address and network part that each
decompose into exactly four dot-separated parts, `check_ip_in_cidr` treats the
prefix length as 0 (`unwrap_or(0)`) and compares zero leading bits, so it
returns `true`: the malformed range matches every such address. -/
theorem check_ip_in_cidr_unparsable_prefix_matches_all
    (ip r p1 : String)
    (h1 : (rsplit '/' r)[1]? = some p1)
    (h2 : parseU8 p1 = none)
    (h3 : (rsplit '.' ip).length = 4)
    (h4 : (rsplit '.' ((rsplit '/' r).headD "")).length = 4) :
    check_ip_in_cidr ip r = some true := by
  unfold check_ip_in_cidr
  simp only [h1, h2, Option.getD_none]
  simp only [List.headD_eq_head?_getD] at h4
  simp [h3, h4, sliceTo]

/-- Witness for the C7 theorem at a concrete malformed range. -/
theorem check_ip_in_cidr_unparsable_prefix_matches_all_witness :
    check_ip_in_cidr "1.2.3.4" "1.2.3.0/x" = some true :=
  check_ip_in_cidr_unparsable_prefix_matches_all "1.2.3.4" "1.2.3.0/x" "x"
    rfl rfl rfl rfl

/-- C9: `cf_detected_domains` returns exactly the subsequence of the held
records whose mask is nonzero, preserving the original order: it equals
`filter` by a nonzero `check_result`, is a sublist of the input (order
preserved), and membership is exactly membership in the input with a nonzero
mask. -/
theorem cf_detected_domains_eq_filter_nonzero (l : List Domain) :
    cf_detected_domains l = l.filter (fun d => d.check_result != 0) ∧
    List.Sublist (cf_detected_domains l) l ∧
    ∀ d : Domain, d ∈ cf_detected_domains l ↔ d ∈ l ∧ d.check_result ≠ 0 := by
  have hf : cf_detected_domains l = l.filter (fun d => d.check_result != 0) := by
    induction l with
    | nil => rfl
    | cons d rest ih => simp only [cf_detected_domains, List.filter_cons, ih]
  refine ⟨hf, ?_, ?_⟩
  · rw [hf]; exact List.filter_sublist l
  · intro d
    rw [hf, List.mem_filter, bne_iff_ne]

/-- Helper: a successful `Domain::build` yields the cleared name with an empty
mask and the reachable flag clear. -/
theorem build_ok_shape (s : String) (d : Domain)
    (h : Domain.build s = some (Except.ok d)) :
    clear_name_from_proto s = some d.name ∧ d.check_result = 0 ∧
      d.is_unreachable = false := by
  unfold Domain.build at h
  rcases hv : Domain.is_valid s with _ | b
  · rw [hv] at h; exact Option.noConfusion h
  · rw [hv] at h
    cases b
    · simp at h
    · rcases hc : clear_name_from_proto s with _ | c <;> rw [hc] at h
      · exact Option.noConfusion h
      · simp only [Option.some.injEq, Except.ok.injEq] at h
        subst h
        exact ⟨rfl, rfl, rfl⟩

/-- Helper: every value `verify_domain` returns carries `Ok(())`, and the
final record either is the unreachable update (HTTP failure) or keeps the
name and the reachability flag of the input record (HTTP success). -/
theorem verify_cases (d : Domain) (cf : CFIPs) (env : NetEnv)
    (res : Domain × Except String Unit)
    (h : Domain.verify_domain d cf env = some res) :
    res.2 = Except.ok () ∧
      ((env.http = none ∧
          res.1 = { d with is_unreachable := true, check_result := 0 }) ∨
        (∃ resp, env.http = some resp ∧ res.1.name = d.name ∧
          res.1.is_unreachable = d.is_unreachable)) := by
  unfold Domain.verify_domain at h
  split at h
  · rename_i hnone
    have hres := Option.some.inj h
    subst hres
    exact ⟨rfl, Or.inl ⟨hnone, rfl⟩⟩
  · rename_i resp hsome
    dsimp only at h
    repeat' split at h
    all_goals first
      | exact Option.noConfusion h
      | (have hres := Option.some.inj h; subst hres;
          exact ⟨rfl, Or.inr ⟨resp, hsome, rfl, rfl⟩⟩)

/-- C10: `verify_domain` never returns an `Err` value: whenever it returns at
all (it can panic, modelled as `none`), the `Result` component is `Ok(())`, so
the caller's `unwrap` in the spawned task can never observe an `Err`. -/
theorem verify_domain_never_err (d : Domain) (cf : CFIPs) (env : NetEnv)
    (r : Domain × Except String Unit)
    (h : Domain.verify_domain d cf env = some r) : r.2 = Except.ok () :=
  (verify_cases d cf env r h).1

/-- Witness for the C10 theorem at a concrete run. -/
theorem verify_domain_never_err_witness :
    ((⟨"example.com", 0, true⟩, Except.ok ()) :
        Domain × Except String Unit).2 = Except.ok () :=
  verify_domain_never_err ⟨"example.com", 0, false⟩ ⟨[], []⟩
    ⟨none, Except.ok (), none⟩ _ rfl

/-- C5: when the initial HTTP GET fails, `verify_domain` marks the record
unreachable, assigns the still-empty mask, and consults nothing else of the
environment (the equation holds for every environment with a failed HTTP
probe); and for every record produced by `Domain::build`, after any completed
verification, an unreachable record has mask 0. -/
theorem verify_domain_unreachable_mask_empty :
    (∀ (d : Domain) (cf : CFIPs) (env : NetEnv), env.http = none →
      Domain.verify_domain d cf env =
        some ({ d with is_unreachable := true, check_result := 0 },
          Except.ok ())) ∧
    (∀ (s : String) (d : Domain) (cf : CFIPs) (env : NetEnv)
        (res : Domain × Except String Unit),
      Domain.build s = some (Except.ok d) →
      Domain.verify_domain d cf env = some res →
      res.1.is_unreachable = true → res.1.check_result = 0) := by
  constructor
  · intro d cf env h
    rcases env with ⟨http, tls⟩
    cases h
    rfl
  · intro s d cf env res hb hv hu
    obtain ⟨_, _, hnr⟩ := build_ok_shape s d hb
    rcases (verify_cases d cf env res hv).2 with ⟨_, hres⟩ | ⟨resp, _, _, hun⟩
    · rw [hres]
    · rw [hnr] at hun
      rw [hun] at hu
      exact Bool.noConfusion hu

/-- Witness for the C5 theorem: a failing probe on a freshly built record. -/
theorem verify_domain_unreachable_mask_empty_witness :
    Domain.verify_domain ⟨"example.com", 0, false⟩ ⟨[], []⟩
        ⟨none, Except.ok (), none⟩ =
      some (⟨"example.com", 0, true⟩, Except.ok ()) ∧
    (⟨"example.com", 0, true⟩ : Domain).check_result = 0 :=
  ⟨verify_domain_unreachable_mask_empty.1 ⟨"example.com", 0, false⟩ ⟨[], []⟩
      ⟨none, Except.ok (), none⟩ rfl,
    verify_domain_unreachable_mask_empty.2 "example.com"
      ⟨"example.com", 0, false⟩ ⟨[], []⟩ ⟨none, Except.ok (), none⟩
      (⟨"example.com", 0, true⟩, Except.ok ()) rfl rfl rfl⟩

/-- C6: for every successful HTTP response lacking a `Server` header, the
Server-header check is fatal: `verify_domain` aborts (the source `unwrap`s the
missing header, a panic, modelled as `none`) instead of absorbing the absence
into the record's state as "bit not set". -/
theorem verify_domain_missing_server_header_fatal
    (d : Domain) (cf : CFIPs) (env : NetEnv) (resp : HttpResp)
    (h1 : env.http = some resp) (h2 : resp.server = none) :
    Domain.verify_domain d cf env = none := by
  rcases env with ⟨http, tls⟩
  cases h1
  rcases resp with ⟨ra, cray, ccache, server⟩
  cases h2
  unfold Domain.verify_domain
  cases ra with
  | none => rfl
  | some ip =>
    dsimp only
    cases hc : cf.check_ip_v4 ip with
    | none => simp [hc]
    | some b => cases b <;> simp [hc]

/-- Witness for the C6 theorem at a concrete response without a `Server`
header. -/
theorem verify_domain_missing_server_header_fatal_witness :
    Domain.verify_domain ⟨"example.com", 0, false⟩ ⟨[], []⟩
      ⟨some ⟨none, true, true, none⟩, ⟨Except.ok (), none⟩⟩ = none :=
  verify_domain_missing_server_header_fatal ⟨"example.com", 0, false⟩ ⟨[], []⟩
    ⟨some ⟨none, true, true, none⟩, ⟨Except.ok (), none⟩⟩
    ⟨none, true, true, none⟩ rfl rfl

/-- C2: the claim states the `CF_SSL` bit (0b10000) is set iff the TLS
handshake succeeds AND some peer certificate's issuer contains `cloudflare`
case-insensitively. The code sets the bit from `get_certificate_info(...)
.is_ok()`, which is `true` whenever the handshake succeeds, even when
`get_certificate_info` reports `Ok(false)` (no issuer matched): a successful
handshake with a DigiCert-issued chain still sets the bit. -/
theorem verify_domain_sets_cf_ssl_without_cloudflare_issuer :
    get_certificate_info ⟨Except.ok (), some ["CN=DigiCert Global Root CA"]⟩ =
      some (Except.ok false) ∧
    Domain.verify_domain ⟨"example.com", 0, false⟩ ⟨[], []⟩
        ⟨some ⟨none, false, false, some "nginx"⟩,
          ⟨Except.ok (), some ["CN=DigiCert Global Root CA"]⟩⟩ =
      some (⟨"example.com", 16, false⟩, Except.ok ()) ∧
    16 = check_result.CF_SSL :=
  ⟨rfl, rfl, rfl⟩

/-- Helper: when no line of the batch panics (no foreign scheme token),
the collected records are exactly the per-line successful builds, in order. -/
theorem collectDomains_eq_filterMap (lines : List String)
    (h : ∀ l ∈ lines, (Domain.build l).isSome) :
    collectDomains lines =
      some (lines.filterMap fun l =>
        match Domain.build l with
        | some (Except.ok d) => some d
        | _ => none) := by
  induction lines with
  | nil => rfl
  | cons l ls ih =>
    have hl := h l (List.mem_cons_self l ls)
    have hrest : ∀ x ∈ ls, (Domain.build x).isSome := fun x hx =>
      h x (List.mem_cons_of_mem l hx)
    rcases hb : Domain.build l with _ | r
    · rw [hb] at hl; exact absurd hl (by simp)
    · cases r with
      | ok d =>
        simp only [collectDomains, hb, List.filterMap_cons, ih hrest,
          Option.map_some']
      | error e =>
        simp only [collectDomains, hb, List.filterMap_cons, ih hrest]

/-- C4 (amended): for every newline-delimited target none of whose lines
carries a foreign scheme token (so no line panics), `Checker::build` creates
exactly one record per line whose build succeeds and silently discards each
line whose build fails, leaving the other lines unaffected. -/
theorem build_records_filters_invalid_lines (target : String)
    (h : ∀ l ∈ rsplit '\n' target, (Domain.build l).isSome) :
    Checker.build_records target =
      some ((rsplit '\n' target).filterMap fun l =>
        match Domain.build l with
        | some (Except.ok d) => some d
        | _ => none) :=
  collectDomains_eq_filterMap (rsplit '\n' target) h

/-- Witness for the amended C4 theorem: a batch with an invalid (but not
panicking) middle line keeps the records of the surrounding lines. -/
theorem build_records_filters_invalid_lines_witness :
    Checker.build_records "example.com\nbad_domain\nexample.org" =
      some [⟨"example.com", 0, false⟩, ⟨"example.org", 0, false⟩] :=
  (build_records_filters_invalid_lines "example.com\nbad_domain\nexample.org"
    (by decide)).trans rfl

/-- C4 (counterexample to the claim as stated): a line whose scheme token
before `://` is neither `http` nor `https` does not merely fail to produce a
record — `Domain::clear_name_from_proto` panics on it, aborting the whole
`Checker::build` batch (modelled as `none`), so the valid line
`example.com`, which alone yields a record, yields none here. -/
theorem build_records_aborts_on_foreign_scheme :
    Checker.build_records "example.com\nftp://bad.com" = none ∧
    Checker.build_records "example.com" = some [⟨"example.com", 0, false⟩] :=
  ⟨rfl, rfl⟩

/-- Helper: the per-label early-return checks of `Domain::is_valid`, as an
iff. -/
theorem label_loop_iff (label : String) :
    (if 63 < label.length then false
     else if ¬ (label.data.all fun c => c.isAlphanum || c == '-') then false
     else if startsWithChar '-' label || endsWithChar '-' label then false
     else true) = true ↔
      (label.length ≤ 63 ∧
        (label.data.all fun c => c.isAlphanum || c == '-') = true ∧
        startsWithChar '-' label = false ∧ endsWithChar '-' label = false) := by
  by_cases h1 : 63 < label.length
  · rw [if_pos h1]
    exact iff_of_false (by simp) fun ⟨h, _⟩ => by omega
  · rw [if_neg h1]
    by_cases h2 : (label.data.all fun c => c.isAlphanum || c == '-') = true
    · rw [if_neg (not_not.mpr h2)]
      by_cases h3 : (startsWithChar '-' label || endsWithChar '-' label) = true
      · rw [if_pos h3]
        refine iff_of_false (by simp) fun ⟨_, _, hs, he⟩ => ?_
        rw [hs, he] at h3
        exact Bool.noConfusion h3
      · rw [if_neg h3]
        simp only [Bool.or_eq_true, not_or, Bool.not_eq_true] at h3
        exact iff_of_true rfl ⟨by omega, h2, h3.1, h3.2⟩
    · rw [if_pos h2]
      exact iff_of_false (by simp) fun ⟨_, h, _⟩ => h2 h

/-- Helper: `is_valid_cleared` as an iff over the label conditions. -/
theorem is_valid_cleared_iff (d : String) :
    is_valid_cleared d = true ↔
      (¬ d.data.isEmpty = true ∧ d.length ≤ 253 ∧ 2 ≤ (rsplit '.' d).length ∧
        ∀ label ∈ rsplit '.' d,
          label.length ≤ 63 ∧
          (label.data.all fun c => c.isAlphanum || c == '-') = true ∧
          startsWithChar '-' label = false ∧ endsWithChar '-' label = false) := by
  simp only [is_valid_cleared]
  by_cases h1 : d.data.isEmpty = true
  · rw [if_pos h1]
    exact iff_of_false (by simp) fun ⟨h, _⟩ => h h1
  · rw [if_neg h1]
    by_cases h2 : 253 < d.length
    · rw [if_pos h2]
      exact iff_of_false (by simp) fun ⟨_, h, _⟩ => by omega
    · rw [if_neg h2]
      by_cases h3 : (rsplit '.' d).length < 2
      · rw [if_pos h3]
        exact iff_of_false (by simp) fun ⟨_, _, h, _⟩ => by omega
      · rw [if_neg h3]
        rw [List.all_eq_true]
        constructor
        · intro h
          exact ⟨h1, by omega, by omega,
            fun label hl => (label_loop_iff label).mp (h label hl)⟩
        · intro ⟨_, _, _, h⟩ label hl
          exact (label_loop_iff label).mpr (h label hl)

/-- Helper: the claim-side validity predicate unfolds to the same label
conditions. -/
theorem spec_is_valid_iff (d : String) :
    spec_is_valid d = true ↔
      (¬ d.data.isEmpty = true ∧ d.length ≤ 253 ∧ 2 ≤ (rsplit '.' d).length ∧
        ∀ label ∈ rsplit '.' d,
          label.length ≤ 63 ∧
          (label.data.all fun c => c.isAlphanum || c == '-') = true ∧
          startsWithChar '-' label = false ∧ endsWithChar '-' label = false) := by
  unfold spec_is_valid
  simp only [decide_eq_true_eq]

/-- Helper: the source's validation body agrees with the claim-side
predicate on every (cleared) name. -/
theorem is_valid_cleared_eq_spec (d : String) :
    is_valid_cleared d = spec_is_valid d :=
  Bool.eq_iff_iff.mpr ((is_valid_cleared_iff d).trans (spec_is_valid_iff d).symm)

/-- C8 (amended): `Domain::build` trims whitespace and, when the token before
the first `://` is `http` or `https`, keeps only the segment between the
first and second `://` (any other token panics); whenever that normalization
returns a name, `build` succeeds — storing exactly that name with an empty
mask and reachable state — iff the name satisfies the claim's validation:
non-empty, at most 253 characters, at least two dot-separated labels, every
label at most 63 characters, only alphanumerics and hyphens, and no label
starting or ending with a hyphen. -/
theorem build_ok_iff_spec_valid_cleared (s cleared : String)
    (h : clear_name_from_proto s = some cleared) :
    Domain.build s = some (Except.ok ⟨cleared, 0, false⟩) ↔
      spec_is_valid cleared = true := by
  unfold Domain.build Domain.is_valid
  rw [h, ← is_valid_cleared_eq_spec]
  simp only [Option.map_some']
  cases hv : is_valid_cleared cleared
  · simp
  · simp [check_result.EMPTY]

/-- Witness for the amended C8 theorem: a scheme-prefixed valid name builds
to the stripped name. -/
theorem build_ok_iff_spec_valid_cleared_witness :
    Domain.build "https://example.com" =
      some (Except.ok ⟨"example.com", 0, false⟩) :=
  (build_ok_iff_spec_valid_cleared "https://example.com" "example.com"
    rfl).mpr rfl

/-- C8 (counterexample to the claim as stated): the claim says `build`
strips a LEADING `http://` scheme and then succeeds iff the resulting name
validates. On `http://example.com://x` the leading-strip residue
`example.com://x` fails the claimed validation (it contains `:` and `/`), yet
the code — which splits on `://` and keeps only `chunks[1]` — accepts the
input and stores `example.com`. -/
theorem build_succeeds_where_claim_validation_fails :
    Domain.build "http://example.com://x" =
      some (Except.ok ⟨"example.com", 0, false⟩) ∧
    spec_strip "http://example.com://x" = "example.com://x" ∧
    spec_is_valid "example.com://x" = false :=
  ⟨rfl, rfl, rfl⟩

end Cfd
